import Mathlib

/-!
Verification of the rpm package reader core (`lib/package.c`).

The C code is shallowly embedded: 32-bit machine integers become `Int`
(with explicit two's-complement conversion where the code reinterprets
raw big-endian words as signed quantities), byte buffers become
`List Nat`, and the external collaborators (lead reader, signature
parser, keyring verification primitive, digest primitive) become
explicit oracle parameters or environment fields, so that every
control-flow decision taken by `package.c` itself is reproduced
definitionally.
-/

namespace Rpm

/-- Result codes, mirroring `rpmRC`. -/
inductive RC
  | ok
  | notfound
  | fail
  | nottrusted
  | nokey
deriving DecidableEq, Repr

/-- Diagnostic messages produced through `rasprintf` in `package.c`.
Each constructor stands for one format string of the source; `ext`
stands for messages produced by external collaborators. -/
inductive Msg
  | regionNoTags
  | regionTagBad
  | regionOffsetBad
  | regionTrailerBad
  | regionSizeBad
  | regionMismatch
  | blobSizeBad
  | sanityOK
  | hdrReadShort
  | hdrMagicBad
  | hdrTagsBad
  | hdrDataBad
  | hdrBlobShort
  | hdrLoadBad
  | ext (n : Nat)
deriving DecidableEq, Repr

/-- Reinterpret an unsigned 32-bit value as a signed `int32_t`. -/
def toSigned (n : Nat) : Int :=
  if n < 2147483648 then (n : Int) else (n : Int) - 4294967296

/-- Wrap-around of 32-bit two's-complement, used where C `int` arithmetic
overflows (trailer offset negation). -/
def wrap32 (x : Int) : Int :=
  (x + 2147483648) % 4294967296 - 2147483648

/-- Read a big-endian 32-bit word at byte index `i`; bytes past the end
of the buffer read as zero. -/
def readU32 (b : List Nat) (i : Nat) : Nat :=
  (b.getD i 0 % 256) * 16777216 + (b.getD (i + 1) 0 % 256) * 65536 +
    (b.getD (i + 2) 0 % 256) * 256 + b.getD (i + 3) 0 % 256

/-- One 16-byte entry-index record (`struct entryInfo_s`), fields kept
as the raw unsigned words obtained by `ntohl`; the code reads `offset`
as signed via `toSigned` where it matters. -/
structure EntryInfo where
  tag : Nat
  type : Nat
  offset : Nat
  count : Nat
deriving DecidableEq, Repr

/-- Parse the entry record at byte index `i` (network byte order),
mirroring `ei2h`. -/
def readEntry (b : List Nat) (i : Nat) : EntryInfo :=
  ⟨readU32 b i, readU32 b (i + 4), readU32 b (i + 8), readU32 b (i + 12)⟩

/-- Entry read at a possibly negative byte index (the region trailer is
read at `dataStart + entry0.offset` where the offset is signed). -/
def readEntryI (b : List Nat) (i : Int) : EntryInfo :=
  if i < 0 then ⟨0, 0, 0, 0⟩ else readEntry b i.toNat

/-- Model of `struct hdrblob_s`: the parsed view over one serialized header.
`ei` is the whole buffer `[il_be, dl_be, entry index, data]`. -/
structure Hdrblob where
  ei : List Nat
  uc : Int
  il : Int
  dl : Int
  pvlen : Int
  ril : Int
  rdl : Int
  regionTag : Int
deriving DecidableEq, Repr

/-- Byte index of `dataStart` inside `ei`. -/
def dataStartIx (blob : Hdrblob) : Int := 8 + 16 * blob.il

/-- Model of `hdrchkRange(dl, p)`: `p < 0 || p > dl`. -/
def hdrchkRange (dl p : Int) : Bool := p < 0 || dl < p

def RPMTAG_HEADERIMMUTABLE : Int := 63
def REGION_TAG_TYPE : Nat := 7
def REGION_TAG_COUNT : Nat := 16

/-- Entry 0 of the blob, parsed into host order (`ei2h(blob->pe, &einfo)`). -/
def regionEntry (blob : Hdrblob) : EntryInfo := readEntry blob.ei 8

/-- The `rdl` value as computed by `headerVerifyRegion`: `regionEnd + 16 - dataStart`. -/
def regionRdl (blob : Hdrblob) : Int := toSigned (regionEntry blob).offset + 16

/-- The 16-byte trailer read at `dataStart + entry0.offset`. -/
def regionTrailer (blob : Hdrblob) : EntryInfo :=
  readEntryI blob.ei (dataStartIx blob + toSigned (regionEntry blob).offset)

/-- The trailer's offset negated in 32-bit `int` arithmetic. -/
def regionToff (blob : Hdrblob) : Int :=
  wrap32 (-(toSigned (regionTrailer blob).offset))

/-- The `ril` value as computed by `headerVerifyRegion` (`einfo.offset / sizeof(*pe)`;
the C expression divides after conversion to `size_t`, whose observable
int32 result equals floor division). -/
def regionRil (blob : Hdrblob) : Int := Int.fdiv (regionToff blob) 16

/-- Model of `headerVerifyRegion` from `lib/package.c`: locates and validates the
immutable-region tag and its trailer, computing `ril`/`rdl`.  Returns
the result code, the (possibly mutated) blob, and the diagnostic. -/
def headerVerifyRegion (regionTag : Int) (exact : Bool) (blob : Hdrblob) :
    RC × Hdrblob × Option Msg :=
  if blob.il < 1 then (RC.fail, blob, some Msg.regionNoTags) else
  if ¬(((regionEntry blob).tag : Int) = regionTag) then (RC.notfound, blob, none) else
  if ¬((regionEntry blob).type = REGION_TAG_TYPE ∧
        (regionEntry blob).count = REGION_TAG_COUNT) then
    (RC.fail, blob, some Msg.regionTagBad) else
  if hdrchkRange blob.dl (toSigned (regionEntry blob).offset + 16) then
    (RC.fail, blob, some Msg.regionOffsetBad) else
  if ¬(((regionTrailer blob).tag : Int) = regionTag ∧
        (regionTrailer blob).type = REGION_TAG_TYPE ∧
        (regionTrailer blob).count = REGION_TAG_COUNT) then
    (RC.fail, { blob with rdl := regionRdl blob }, some Msg.regionTrailerBad) else
  if ¬(regionToff blob % 16 = 0) ∨ hdrchkRange blob.il (regionRil blob) ∨
      hdrchkRange blob.dl (regionRdl blob) then
    (RC.fail, { blob with rdl := regionRdl blob, ril := regionRil blob },
      some Msg.regionSizeBad) else
  if exact = true ∧ ¬(blob.il = regionRil blob ∧ blob.dl = regionRdl blob) then
    (RC.fail, { blob with rdl := regionRdl blob, ril := regionRil blob },
      some Msg.regionMismatch)
  else (RC.ok, { blob with rdl := regionRdl blob, ril := regionRil blob, regionTag := regionTag }, none)

/-- A minimal well-formed blob: one region entry whose trailer sits at
data offset 0 with the canonical negated offset `-16`. -/
def validBlob : Hdrblob :=
  { ei := [0, 0, 0, 1, 0, 0, 0, 16,
           0, 0, 0, 63, 0, 0, 0, 7, 0, 0, 0, 0, 0, 0, 0, 16,
           0, 0, 0, 63, 0, 0, 0, 7, 255, 255, 255, 240, 0, 0, 0, 16]
    uc := 40, il := 1, dl := 16, pvlen := 40, ril := 0, rdl := 0, regionTag := 0 }

example : (headerVerifyRegion 63 true validBlob).1 = RC.ok := by decide
example : (headerVerifyRegion 63 true validBlob).2.1.ril = 1 := by decide
example : (headerVerifyRegion 63 true validBlob).2.1.rdl = 16 := by decide
example : (headerVerifyRegion 62 true validBlob).1 = RC.notfound := by decide

/-- The success conditions of claim C3 exactly as the claim states
them: no nonnegativity requirement on `entry0.offset + 16` nor on
`ril` (both are signed 32-bit values in the code). -/
def claimC3Conds (regionTag : Int) (exact : Bool) (blob : Hdrblob) : Prop :=
  1 ≤ blob.il ∧ ((regionEntry blob).tag : Int) = regionTag ∧
  (regionEntry blob).type = REGION_TAG_TYPE ∧
  (regionEntry blob).count = REGION_TAG_COUNT ∧
  toSigned (regionEntry blob).offset + 16 ≤ blob.dl ∧
  ((regionTrailer blob).tag : Int) = regionTag ∧
  (regionTrailer blob).type = REGION_TAG_TYPE ∧
  (regionTrailer blob).count = REGION_TAG_COUNT ∧
  regionToff blob % 16 = 0 ∧ regionRil blob ≤ blob.il ∧
  regionRdl blob ≤ blob.dl ∧
  (exact = true → blob.il = regionRil blob ∧ blob.dl = regionRdl blob)

instance (regionTag : Int) (exact : Bool) (blob : Hdrblob) :
    Decidable (claimC3Conds regionTag exact blob) := by
  unfold claimC3Conds; infer_instance

/-- The amended success conditions: as claim C3, plus the two
nonnegativity conditions the code enforces through `hdrchkRange`
(`0 ≤ entry0.offset + 16` and `0 ≤ ril`, the offsets being read as
signed 32-bit integers). -/
def claimC3AmendedConds (regionTag : Int) (exact : Bool) (blob : Hdrblob) : Prop :=
  1 ≤ blob.il ∧ ((regionEntry blob).tag : Int) = regionTag ∧
  (regionEntry blob).type = REGION_TAG_TYPE ∧
  (regionEntry blob).count = REGION_TAG_COUNT ∧
  0 ≤ toSigned (regionEntry blob).offset + 16 ∧
  toSigned (regionEntry blob).offset + 16 ≤ blob.dl ∧
  ((regionTrailer blob).tag : Int) = regionTag ∧
  (regionTrailer blob).type = REGION_TAG_TYPE ∧
  (regionTrailer blob).count = REGION_TAG_COUNT ∧
  regionToff blob % 16 = 0 ∧ 0 ≤ regionRil blob ∧ regionRil blob ≤ blob.il ∧
  regionRdl blob ≤ blob.dl ∧
  (exact = true → blob.il = regionRil blob ∧ blob.dl = regionRdl blob)

instance (regionTag : Int) (exact : Bool) (blob : Hdrblob) :
    Decidable (claimC3AmendedConds regionTag exact blob) := by
  unfold claimC3AmendedConds; infer_instance

/-- A blob whose trailer stores a positive offset `+16`: the negated
offset is `-16`, so `ril = -1` and `hdrchkRange(il, ril)` fails, while
every condition listed by claim C3 holds. -/
def c3blob : Hdrblob :=
  { ei := [0, 0, 0, 1, 0, 0, 0, 32,
           0, 0, 0, 63, 0, 0, 0, 7, 0, 0, 0, 0, 0, 0, 0, 16,
           0, 0, 0, 63, 0, 0, 0, 7, 0, 0, 0, 16, 0, 0, 0, 16,
           0, 0, 0, 0, 0, 0, 0, 0, 0, 0, 0, 0, 0, 0, 0, 0]
    uc := 56, il := 1, dl := 32, pvlen := 56, ril := 0, rdl := 0, regionTag := 0 }

/-- Claim C3 is false as stated: on `c3blob` every condition of the
claim holds (the trailer's negated offset `-16` is divisible by 16 and
`ril = -1 ≤ il`, `rdl = 16 ≤ dl`), yet `headerVerifyRegion` fails,
because `hdrchkRange` also rejects the negative `ril`. -/
theorem claim_C3_counterexample :
    claimC3Conds 63 false c3blob ∧
      (headerVerifyRegion 63 false c3blob).1 ≠ RC.ok := by
  decide

lemma hdrchkRange_false (dl p : Int) :
    hdrchkRange dl p = false ↔ 0 ≤ p ∧ p ≤ dl := by
  simp [hdrchkRange]

/-- Claim C3 (amended): `headerVerifyRegion` returns `NotFound` exactly
when entry 0 exists and its tag differs from the expected region tag,
and returns `Ok` exactly when the claim's conditions hold together with
the nonnegativity of the signed quantities `entry0.offset + 16` and
`ril` that the code checks through `hdrchkRange`. -/
theorem claim_C3 (regionTag : Int) (exact : Bool) (blob : Hdrblob) :
    ((1 ≤ blob.il ∧ ¬(((regionEntry blob).tag : Int) = regionTag)) →
        (headerVerifyRegion regionTag exact blob).1 = RC.notfound) ∧
    ((headerVerifyRegion regionTag exact blob).1 = RC.ok ↔
        claimC3AmendedConds regionTag exact blob) := by
  constructor
  · rintro ⟨h1, h2⟩
    unfold headerVerifyRegion
    rw [if_neg (by omega), if_pos h2]
  · unfold headerVerifyRegion claimC3AmendedConds
    by_cases h1 : blob.il < 1
    · rw [if_pos h1]
      exact iff_of_false (by simp) (fun hc => absurd hc.1 (by omega))
    rw [if_neg h1]
    by_cases h2 : ((regionEntry blob).tag : Int) = regionTag
    case neg =>
      rw [if_pos h2]
      exact iff_of_false (by simp) (fun hc => h2 hc.2.1)
    rw [if_neg (not_not_intro h2)]
    by_cases h3 : (regionEntry blob).type = REGION_TAG_TYPE ∧
        (regionEntry blob).count = REGION_TAG_COUNT
    case neg =>
      rw [if_pos h3]
      exact iff_of_false (by simp) (fun hc => h3 ⟨hc.2.2.1, hc.2.2.2.1⟩)
    rw [if_neg (not_not_intro h3)]
    by_cases h4 : hdrchkRange blob.dl (toSigned (regionEntry blob).offset + 16) = true
    case pos =>
      rw [if_pos h4]
      refine iff_of_false (by simp) (fun hc => ?_)
      obtain ⟨c1, c2, c3, c4, c5, c6, c10, c11, c12, c13, c14⟩ := hc
      simp only [hdrchkRange, Bool.or_eq_true, decide_eq_true_eq] at h4
      omega
    rw [if_neg h4]
    by_cases h5 : ((regionTrailer blob).tag : Int) = regionTag ∧
        (regionTrailer blob).type = REGION_TAG_TYPE ∧
        (regionTrailer blob).count = REGION_TAG_COUNT
    case neg =>
      rw [if_pos h5]
      refine iff_of_false (by simp) (fun hc => ?_)
      exact h5 ⟨hc.2.2.2.2.2.2.1, hc.2.2.2.2.2.2.2.1, hc.2.2.2.2.2.2.2.2.1⟩
    rw [if_neg (not_not_intro h5)]
    by_cases h6 : ¬(regionToff blob % 16 = 0) ∨ hdrchkRange blob.il (regionRil blob) = true ∨
        hdrchkRange blob.dl (regionRdl blob) = true
    case pos =>
      rw [if_pos h6]
      refine iff_of_false (by simp) (fun hc => ?_)
      obtain ⟨c1, c2, c3, c4, c5, c6, c7, c8, c9, c10, c11, c12, c13, c14⟩ := hc
      rcases h6 with h | h | h
      · exact h c10
      · simp only [hdrchkRange, Bool.or_eq_true, decide_eq_true_eq] at h
        omega
      · simp only [hdrchkRange, Bool.or_eq_true, decide_eq_true_eq] at h
        unfold regionRdl at h
        omega
    rw [if_neg h6]
    push_neg at h6
    obtain ⟨d1, d2, d3⟩ := h6
    rw [ne_eq, Bool.not_eq_true, hdrchkRange_false] at d2 d3
    by_cases h7 : exact = true ∧ ¬(blob.il = regionRil blob ∧ blob.dl = regionRdl blob)
    case pos =>
      rw [if_pos h7]
      refine iff_of_false (by simp) (fun hc => ?_)
      obtain ⟨c1, c2, c3, c4, c5, c6, c7, c8, c9, c10, c11, c12, c13, c14⟩ := hc
      exact h7.2 (c14 h7.1)
    rw [if_neg h7]
    rw [Bool.not_eq_true, hdrchkRange_false] at h4
    refine iff_of_true rfl ⟨by omega, h2, h3.1, h3.2, h4.1, h4.2, h5.1, h5.2.1, h5.2.2,
      d1, d2.1, d2.2, d3.2, ?_⟩
    intro hex
    exact not_not.mp (fun hn => h7 ⟨hex, hn⟩)

/-- Witness for claim C3's amended theorem at a concrete blob. -/
theorem claim_C3_witness :
    (headerVerifyRegion 63 true validBlob).1 = RC.ok ∧
      (headerVerifyRegion 62 true validBlob).1 = RC.notfound := by
  constructor
  · exact (claim_C3 63 true validBlob).2.mpr (by decide)
  · exact (claim_C3 62 true validBlob).1 (by decide)

/-- Claim C9: `regionTag` is written only on the success path; on
`c3blob` the call fails after having already overwritten `rdl` and
`ril` with values derived from the untrusted input. -/
theorem claim_C9 :
    (∀ (regionTag : Int) (exact : Bool) (blob : Hdrblob),
        (headerVerifyRegion regionTag exact blob).1 ≠ RC.ok →
        (headerVerifyRegion regionTag exact blob).2.1.regionTag = blob.regionTag) ∧
    ((headerVerifyRegion 63 false c3blob).1 = RC.fail ∧
      (headerVerifyRegion 63 false c3blob).2.1.rdl ≠ c3blob.rdl ∧
      (headerVerifyRegion 63 false c3blob).2.1.ril ≠ c3blob.ril) := by
  constructor
  · intro regionTag exact blob h
    unfold headerVerifyRegion at *
    split_ifs at * <;> simp_all
  · decide

/-- Witness for claim C9 (its first conjunct has a hypothesis):
a failing call preserves `regionTag`. -/
theorem claim_C9_witness :
    (headerVerifyRegion 62 true validBlob).2.1.regionTag = validBlob.regionTag :=
  claim_C9.1 62 true validBlob (by decide)

/-! ## Header-only signature/digest verification (`headerSigVerify`) -/

def RPMTAG_SHA1HEADER : Int := 269
def RPMTAG_RSAHEADER : Int := 268
def RPMTAG_DSAHEADER : Int := 267

/-- The disable bits of `rpmVSFlags` consumed by `package.c`. -/
structure VSFlags where
  nosha1header : Bool
  norsaheader : Bool
  nodsaheader : Bool
deriving DecidableEq, Repr

/-- Model of `struct rpmtd_s` as filled by `ei2td`: the selected tag's
parameters; `offset` stands for the `data` pointer
(`dataStart + info->offset`). -/
structure Td where
  tag : Nat
  type : Nat
  count : Nat
  size : Nat
  offset : Nat
deriving DecidableEq, Repr

/-- Model of `ei2td`: fill a tag container from an entry record. -/
def ei2td (info : EntryInfo) (siglen : Nat) : Td :=
  ⟨info.tag, info.type, info.count, siglen, info.offset⟩

/-- Model of `struct sigtInfo_s` (only the field `package.c` reads). -/
structure Sinfo where
  hashalgo : Nat
deriving DecidableEq, Repr

/-- Outcome of the external collaborator `rpmSigInfoParse`: either a
nonzero return (failure, possibly with a diagnostic in `*buf`) or
success with a filled `sinfo`.  Per the spec interface
`siginfo_parse(td, label) → (SigInfo, SigParams, err?)`, a message is
produced only on failure. -/
inductive ParseResult
  | fail (msg : Option Msg)
  | ok (sinfo : Sinfo)
deriving DecidableEq, Repr

/-- Result of `headerSigVerify`: the return code, the byte sequence fed
to the digest (none when no digest context was created), whether the
verification primitive was invoked, and the diagnostic. -/
structure SigOut where
  rc : RC
  fed : Option (List Nat)
  verified : Bool
  msg : Option Msg
deriving DecidableEq, Repr

/-- The constant `rpm_header_magic`: the fixed 8-byte header magic. -/
def rpm_header_magic : List Nat := [142, 173, 232, 1, 0, 0, 0, 0]

/-- Big-endian serialization of a 32-bit word. -/
def be32 (n : Nat) : List Nat :=
  [n / 16777216 % 256, n / 65536 % 256, n / 256 % 256, n % 256]

/-- The serialization `htonl` applied to a C `int32_t`, as the 4 bytes that land in the
digest. -/
def htonl (x : Int) : List Nat := be32 (x % 4294967296).toNat

/-- The 16 bytes of one entry-index record in network byte order (what
`rpmDigestUpdate(ctx, pe, ril * sizeof(*pe))` reads from memory). -/
def entryBytes (e : EntryInfo) : List Nat :=
  be32 e.tag ++ be32 e.type ++ be32 e.offset ++ be32 e.count

/-- One iteration of the tag-collection loop of `headerSigVerify`.
The C code tests `sigtd.tag == 0`; since a selected tag is always one
of `SHA1HEADER`/`RSAHEADER`/`DSAHEADER` (all nonzero), that test is
`acc = none` here. -/
def selStep (vs : VSFlags) (acc : Option Td) (e : EntryInfo) : Option Td :=
  if (e.tag : Int) = RPMTAG_SHA1HEADER then
    if vs.nosha1header then acc
    else match acc with
      | none => some (ei2td e 0)
      | some t => some t
  else if (e.tag : Int) = RPMTAG_RSAHEADER then
    if vs.norsaheader then acc else some (ei2td e e.count)
  else if (e.tag : Int) = RPMTAG_DSAHEADER then
    if vs.nodsaheader then acc else some (ei2td e e.count)
  else acc

/-- The tag-collection loop of `headerSigVerify` over the trailing
entries. -/
def sigSelect (vs : VSFlags) (es : List EntryInfo) : Option Td :=
  es.foldl (selStep vs) none

/-- Model of `headerSigVerify` from `lib/package.c`.  `pe` is the parsed entry
index, `dataStart` the data segment bytes; `parse` and `verify` are the
external collaborators `rpmSigInfoParse` and `rpmVerifySignature`. -/
def headerSigVerify (vs : VSFlags) (il dl ril rdl : Int)
    (pe : List EntryInfo) (dataStart : List Nat)
    (parse : Td → ParseResult) (verify : List Nat → RC × Option Msg) : SigOut :=
  match sigSelect vs ((pe.take il.toNat).drop ril.toNat) with
  | none => ⟨RC.notfound, none, false, none⟩
  | some sigtd =>
    match parse sigtd with
    | ParseResult.fail m => ⟨RC.fail, none, false, m⟩
    | ParseResult.ok sinfo =>
      if sinfo.hashalgo ≠ 0 then
        let input := rpm_header_magic ++ htonl ril ++ htonl rdl ++
          (pe.map entryBytes).flatten.take (16 * ril.toNat) ++
          dataStart.take rdl.toNat
        ⟨(verify input).1, some input, true, (verify input).2⟩
      else ⟨RC.fail, none, false, none⟩

lemma entryBytes_length (e : EntryInfo) : (entryBytes e).length = 16 := by
  simp [entryBytes, be32]

/-- Taking `16·r` bytes of the serialized entry index is serializing
its first `r` records. -/
lemma take_flatten_entryBytes (pe : List EntryInfo) (r : Nat) :
    (pe.map entryBytes).flatten.take (16 * r) =
      ((pe.take r).map entryBytes).flatten := by
  induction pe generalizing r with
  | nil => simp
  | cons e tl ih =>
    cases r with
    | zero => simp
    | succ n =>
      simp only [List.map_cons, List.flatten_cons, List.take_succ_cons]
      have h16 : 16 * (n + 1) = (entryBytes e).length + 16 * n := by
        rw [entryBytes_length]; ring
      rw [h16, List.take_append, ih]

/-- Claim C1: whenever a header-only signature/digest entry is selected
and its parsed descriptor carries a hash algorithm, the digest is fed
exactly the magic, `be32(ril) ‖ be32(rdl)`, the first `ril` entry
records in network byte order, and the first `rdl` data bytes, in this
order and nothing else, and the verification primitive is invoked on
exactly that sequence. -/
theorem claim_C1 (vs : VSFlags) (il dl ril rdl : Int)
    (pe : List EntryInfo) (dataStart : List Nat)
    (parse : Td → ParseResult) (verify : List Nat → RC × Option Msg)
    (sigtd : Td) (sinfo : Sinfo)
    (hsel : sigSelect vs ((pe.take il.toNat).drop ril.toNat) = some sigtd)
    (hparse : parse sigtd = ParseResult.ok sinfo)
    (halgo : sinfo.hashalgo ≠ 0)
    (hril0 : 0 ≤ ril) (hril : ril ≤ il) (hil : (pe.length : Int) = il)
    (hrdl0 : 0 ≤ rdl) (hrdl : rdl ≤ dl) (hdl : (dataStart.length : Int) = dl) :
    (headerSigVerify vs il dl ril rdl pe dataStart parse verify).fed =
        some (rpm_header_magic ++ htonl ril ++ htonl rdl ++
          ((pe.take ril.toNat).map entryBytes).flatten ++
          dataStart.take rdl.toNat) ∧
    (headerSigVerify vs il dl ril rdl pe dataStart parse verify).verified = true ∧
    (headerSigVerify vs il dl ril rdl pe dataStart parse verify).rc =
        (verify (rpm_header_magic ++ htonl ril ++ htonl rdl ++
          ((pe.take ril.toNat).map entryBytes).flatten ++
          dataStart.take rdl.toNat)).1 := by
  unfold headerSigVerify
  simp only [hsel, hparse]
  rw [if_pos halgo]
  simp only [take_flatten_entryBytes]
  exact ⟨trivial, trivial, trivial⟩

/-- Concrete instance for claim C1: one trailing `RPMTAG_RSAHEADER`
entry over a one-entry region. -/
def c1pe : List EntryInfo := [⟨63, 7, 16, 16⟩, ⟨268, 7, 32, 4⟩]

def c1data : List Nat :=
  [1, 2, 3, 4, 5, 6, 7, 8, 9, 10, 11, 12, 13, 14, 15, 16,
   0, 0, 0, 63, 0, 0, 0, 7, 255, 255, 255, 240, 0, 0, 0, 16,
   21, 22, 23, 24]

def c1parse : Td → ParseResult := fun _ => ParseResult.ok ⟨8⟩

def c1verify : List Nat → RC × Option Msg := fun _ => (RC.ok, none)

/-- Witness for claim C1 at a concrete input. -/
theorem claim_C1_witness :
    (headerSigVerify ⟨false, false, false⟩ 2 36 1 32 c1pe c1data
        c1parse c1verify).fed =
      some (rpm_header_magic ++ htonl 1 ++ htonl 32 ++
        ((c1pe.take 1).map entryBytes).flatten ++ c1data.take 32) :=
  (claim_C1 ⟨false, false, false⟩ 2 36 1 32 c1pe c1data c1parse c1verify
    (ei2td ⟨268, 7, 32, 4⟩ 4) ⟨8⟩ (by decide) (by decide) (by decide)
    (by decide) (by decide) (by decide) (by decide) (by decide) (by decide)).1

/-- Claim C2 is false as stated: with an enabled `RSAHEADER` entry
followed by an enabled `DSAHEADER` entry, the loop keeps the *last*
signature seen (`DSAHEADER`), while the claim predicts the first one in
entry-index order (`RSAHEADER`, also the claimed higher priority). -/
theorem claim_C2_counterexample :
    (sigSelect ⟨false, false, false⟩ [⟨268, 7, 0, 4⟩, ⟨267, 7, 4, 4⟩]).map Td.tag =
        some 267 ∧ (267 : Nat) ≠ 268 := by
  decide

/-- An entry is an enabled header-only signature tag. -/
def enabledSig (vs : VSFlags) (e : EntryInfo) : Bool :=
  ((e.tag : Int) = RPMTAG_RSAHEADER && !vs.norsaheader) ||
    ((e.tag : Int) = RPMTAG_DSAHEADER && !vs.nodsaheader)

/-- An entry is an enabled header-only digest tag. -/
def enabledSha (vs : VSFlags) (e : EntryInfo) : Bool :=
  (e.tag : Int) = RPMTAG_SHA1HEADER && !vs.nosha1header

/-- The characterization of the collection loop: the last enabled
signature wins; otherwise the first enabled digest. -/
def sigSelectSpec (vs : VSFlags) (es : List EntryInfo) : Option Td :=
  match (es.filter (enabledSig vs)).getLast? with
  | some e => some (ei2td e e.count)
  | none => ((es.filter (enabledSha vs)).head?).map (fun e => ei2td e 0)

lemma selStep_fold_spec (vs : VSFlags) (es : List EntryInfo) :
    ∀ acc : Option Td,
      es.foldl (selStep vs) acc =
        match (es.filter (enabledSig vs)).getLast? with
        | some e => some (ei2td e e.count)
        | none => match acc with
          | some t => some t
          | none => ((es.filter (enabledSha vs)).head?).map (fun e => ei2td e 0) := by
  induction es with
  | nil => intro acc; cases acc <;> rfl
  | cons e tl ih =>
    intro acc
    by_cases hsig : enabledSig vs e = true
    · have hstep : selStep vs acc e = some (ei2td e e.count) := by
        simp only [enabledSig, Bool.or_eq_true, Bool.and_eq_true,
          Bool.not_eq_true', decide_eq_true_eq] at hsig
        rcases hsig with ⟨ht, hf⟩ | ⟨ht, hf⟩
        · have hne : ¬((e.tag : Int) = RPMTAG_SHA1HEADER) := by
            rw [ht]; decide
          simp only [selStep, if_neg hne, if_pos ht]
          rw [if_neg (by simp [hf])]
        · have hne : ¬((e.tag : Int) = RPMTAG_SHA1HEADER) := by
            rw [ht]; decide
          have hne2 : ¬((e.tag : Int) = RPMTAG_RSAHEADER) := by
            rw [ht]; decide
          simp only [selStep, if_neg hne, if_neg hne2, if_pos ht]
          rw [if_neg (by simp [hf])]
      rw [List.foldl_cons, hstep, ih]
      rw [List.filter_cons_of_pos hsig]
      cases hfl : tl.filter (enabledSig vs) with
      | nil => simp
      | cons y ys =>
        rw [List.getLast?_cons_cons]
        cases hz : (y :: ys).getLast? with
        | none => simp at hz
        | some z => rfl
    · have hstep : tl.foldl (selStep vs) (selStep vs acc e) =
          tl.foldl (selStep vs) (match acc with
            | some t => some t
            | none => if enabledSha vs e then some (ei2td e 0) else none) := by
        congr 1
        simp only [enabledSig, Bool.or_eq_true, Bool.and_eq_true,
          Bool.not_eq_true', decide_eq_true_eq] at hsig
        push_neg at hsig
        by_cases hsha : (e.tag : Int) = RPMTAG_SHA1HEADER
        · by_cases hdis : vs.nosha1header
          · cases acc <;> simp_all [selStep, enabledSha]
          · cases acc <;> simp_all [selStep, enabledSha]
        · by_cases hrsa : (e.tag : Int) = RPMTAG_RSAHEADER
          · have := hsig.1 hrsa
            cases acc <;> simp_all [selStep, enabledSha]
          · by_cases hdsa : (e.tag : Int) = RPMTAG_DSAHEADER
            · have := hsig.2 hdsa
              cases acc <;> simp_all [selStep, enabledSha]
            · cases acc <;> simp_all [selStep, enabledSha]
      rw [List.foldl_cons, hstep, ih]
      rw [List.filter_cons_of_neg hsig]
      cases hlast : (tl.filter (enabledSig vs)).getLast? with
      | some x => rfl
      | none =>
        cases acc with
        | some t => rfl
        | none =>
          by_cases hsha : enabledSha vs e = true
          · rw [List.filter_cons_of_pos hsha]
            simp [hsha]
          · rw [List.filter_cons_of_neg hsha]
            simp [hsha]

/-- Claim C2 (amended): the loop collects at most one tag, skips
disabled tags, prefers signatures over the digest, and among enabled
signatures the **last** one in entry-index order wins (`RSAHEADER` and
`DSAHEADER` have no relative priority); an enabled `SHA1HEADER` digest
is chosen only when no enabled signature is present, and then the first
one wins. -/
theorem claim_C2 (vs : VSFlags) (es : List EntryInfo) :
    sigSelect vs es = sigSelectSpec vs es := by
  rw [sigSelect, sigSelectSpec, selStep_fold_spec]

/-- Claim C10: when a header-only tag is selected and the signature
parse succeeds but reports `hashalgo == 0`, `headerSigVerify` falls
through to `exit` with its initial `rc = RPMRC_FAIL`: no digest is
computed, the verification primitive is not invoked, and no diagnostic
is produced. -/
theorem claim_C10 (vs : VSFlags) (il dl ril rdl : Int)
    (pe : List EntryInfo) (dataStart : List Nat)
    (parse : Td → ParseResult) (verify : List Nat → RC × Option Msg)
    (sigtd : Td) (sinfo : Sinfo)
    (hsel : sigSelect vs ((pe.take il.toNat).drop ril.toNat) = some sigtd)
    (hparse : parse sigtd = ParseResult.ok sinfo)
    (halgo : sinfo.hashalgo = 0) :
    headerSigVerify vs il dl ril rdl pe dataStart parse verify =
      ⟨RC.fail, none, false, none⟩ := by
  unfold headerSigVerify
  simp only [hsel, hparse]
  rw [if_neg (by simp [halgo])]

/-- Parse collaborator reporting no hash algorithm. -/
def c10parse : Td → ParseResult := fun _ => ParseResult.ok ⟨0⟩

/-- Witness for claim C10 at a concrete input. -/
theorem claim_C10_witness :
    headerSigVerify ⟨false, false, false⟩ 2 36 1 32 c1pe c1data
        c10parse c1verify = ⟨RC.fail, none, false, none⟩ :=
  claim_C10 ⟨false, false, false⟩ 2 36 1 32 c1pe c1data c10parse c1verify
    (ei2td ⟨268, 7, 32, 4⟩ 4) ⟨0⟩ (by decide) (by decide) (by decide)

/-! ## The key-id stash (`stashKeyid`) -/

/-- The process-wide state of `stashKeyid`: the stored key ids (the C
array of length `nkeyids`) and the ring cursor `nextkeyid`. -/
structure KeyStash where
  keyids : List Nat
  nextkeyid : Nat
deriving DecidableEq, Repr

/-- The initial (static) state: no ids stored, cursor at 0. -/
def stashEmpty : KeyStash := ⟨[], 0⟩

/-- Model of `stashKeyid` from `lib/package.c`: returns whether the id was
already seen and the updated state.  While fewer than 256 ids are
stored, `realloc` grows the array by one slot before the write at
`nextkeyid`; once full, the write overwrites the oldest slot.  The
lock-failure path (pretend unseen) is a concurrency artifact outside
this single-threaded embedding. -/
def stashKeyid (s : KeyStash) (keyid : Nat) : Bool × KeyStash :=
  if keyid = 0 then (false, s)
  else if keyid ∈ s.keyids then (true, s)
  else
    let ks := if s.keyids.length < 256 then s.keyids ++ [0] else s.keyids
    (false, ⟨ks.set s.nextkeyid keyid, (s.nextkeyid + 1) % 256⟩)

/-- Run a sequence of observations from the initial state. -/
def stashRun (seq : List Nat) : KeyStash :=
  seq.foldl (fun s k => (stashKeyid s k).2) stashEmpty

/-- Number of distinct nonzero ids in a sequence. -/
def distinctNonzero (seq : List Nat) : Nat :=
  ((seq.filter (fun k => k ≠ 0)).toFinset).card

lemma stashKeyid_fst_true (s : KeyStash) (keyid : Nat) :
    (stashKeyid s keyid).1 = true ↔ (keyid ≠ 0 ∧ keyid ∈ s.keyids) := by
  unfold stashKeyid
  by_cases h0 : keyid = 0
  · simp [h0]
  · rw [if_neg h0]
    by_cases hm : keyid ∈ s.keyids
    · simp [hm, h0]
    · simp [hm, h0]

lemma list_set_append_length {α : Type} (l : List α) (a b : α) :
    (l ++ [a]).set l.length b = l ++ [b] := by
  induction l with
  | nil => rfl
  | cons x xs ih => simp [List.set_cons_succ, ih]

/-- Invariant of the reachable stash states while at most 256 distinct
nonzero ids have been observed: the stored ids are exactly the distinct
nonzero ids seen so far (no duplicates, no zero), and the cursor equals
the fill level. -/
lemma stashRun_invariant (seq : List Nat) (h : distinctNonzero seq ≤ 256) :
    (stashRun seq).keyids.Nodup ∧
    (0 : Nat) ∉ (stashRun seq).keyids ∧
    (∀ id : Nat, id ∈ (stashRun seq).keyids ↔ (id ≠ 0 ∧ id ∈ seq)) ∧
    (stashRun seq).keyids.length = distinctNonzero seq ∧
    (stashRun seq).nextkeyid = (stashRun seq).keyids.length % 256 := by
  induction seq using List.reverseRecOn with
  | nil => exact ⟨List.nodup_nil, by simp [stashRun, stashEmpty],
      by simp [stashRun, stashEmpty], by simp [stashRun, stashEmpty, distinctNonzero],
      by simp [stashRun, stashEmpty]⟩
  | append_singleton xs x ih =>
    have hmono : distinctNonzero xs ≤ distinctNonzero (xs ++ [x]) := by
      unfold distinctNonzero
      apply Finset.card_le_card
      intro a ha
      simp only [List.mem_toFinset, List.mem_filter] at ha ⊢
      exact ⟨by simp [ha.1], ha.2⟩
    obtain ⟨inv1, inv2, inv3, inv4, inv5⟩ := ih (le_trans hmono h)
    have hrun : stashRun (xs ++ [x]) = (stashKeyid (stashRun xs) x).2 := by
      unfold stashRun
      rw [List.foldl_append]
      rfl
    by_cases h0 : x = 0
    · have hstep : (stashKeyid (stashRun xs) x).2 = stashRun xs := by
        unfold stashKeyid
        rw [if_pos h0]
      have hdn : distinctNonzero (xs ++ [x]) = distinctNonzero xs := by
        unfold distinctNonzero
        rw [List.filter_append]
        simp [h0]
      rw [hrun, hstep, hdn]
      refine ⟨inv1, inv2, ?_, inv4, inv5⟩
      intro id
      rw [inv3 id]
      constructor
      · exact fun hx => ⟨hx.1, by simp [hx.2]⟩
      · rintro ⟨hne, hmem⟩
        rcases List.mem_append.mp hmem with hm | hm
        · exact ⟨hne, hm⟩
        · rw [List.mem_singleton] at hm
          exact absurd (hm.trans h0) hne
    · have hfx : List.filter (fun k => decide (k ≠ 0)) [x] = [x] := by simp [h0]
      by_cases hmem : x ∈ (stashRun xs).keyids
      · have hstep : (stashKeyid (stashRun xs) x).2 = stashRun xs := by
          unfold stashKeyid
          rw [if_neg h0, if_pos hmem]
        have hxseen : x ∈ xs := ((inv3 x).mp hmem).2
        have hxf : x ∈ (xs.filter (fun k => decide (k ≠ 0))).toFinset := by
          rw [List.mem_toFinset, List.mem_filter]
          exact ⟨hxseen, by simp [h0]⟩
        have hdn : distinctNonzero (xs ++ [x]) = distinctNonzero xs := by
          unfold distinctNonzero
          rw [List.filter_append, hfx, List.toFinset_append]
          have hu : (xs.filter (fun k => decide (k ≠ 0))).toFinset ∪
              ([x].toFinset) = (xs.filter (fun k => decide (k ≠ 0))).toFinset := by
            apply Finset.union_eq_left.mpr
            intro a ha
            simp only [List.toFinset_cons, List.toFinset_nil,
              Finset.mem_insert, Finset.not_mem_empty, or_false] at ha
            rw [ha]
            exact hxf
          rw [hu]
        rw [hrun, hstep, hdn]
        refine ⟨inv1, inv2, ?_, inv4, inv5⟩
        intro id
        rw [inv3 id]
        constructor
        · exact fun hx => ⟨hx.1, List.mem_append_left _ hx.2⟩
        · rintro ⟨hne, hm⟩
          rcases List.mem_append.mp hm with hm2 | hm2
          · exact ⟨hne, hm2⟩
          · rw [List.mem_singleton] at hm2
            exact ⟨hne, hm2 ▸ hxseen⟩
      · have hxnf : x ∉ (xs.filter (fun k => decide (k ≠ 0))).toFinset := by
          rw [List.mem_toFinset, List.mem_filter]
          rintro ⟨hx1, _⟩
          exact hmem ((inv3 x).mpr ⟨h0, hx1⟩)
        have hdn : distinctNonzero (xs ++ [x]) = distinctNonzero xs + 1 := by
          unfold distinctNonzero
          rw [List.filter_append, hfx, List.toFinset_append]
          have : ([x].toFinset : Finset Nat) = {x} := by simp
          rw [this, Finset.union_comm, ← Finset.insert_eq,
            Finset.card_insert_of_not_mem hxnf]
        have hlt : (stashRun xs).keyids.length < 256 := by
          rw [inv4]
          rw [hdn] at h
          omega
        have hnext : (stashRun xs).nextkeyid = (stashRun xs).keyids.length := by
          rw [inv5, Nat.mod_eq_of_lt hlt]
        have hstep : (stashKeyid (stashRun xs) x).2 =
            ⟨(stashRun xs).keyids ++ [x], ((stashRun xs).keyids.length + 1) % 256⟩ := by
          unfold stashKeyid
          rw [if_neg h0, if_neg hmem]
          simp only [if_pos hlt, hnext]
          rw [list_set_append_length]
        rw [hrun, hstep, hdn]
        refine ⟨?_, ?_, ?_, ?_, ?_⟩
        · rw [List.nodup_append]
          refine ⟨inv1, List.nodup_singleton x, ?_⟩
          intro a ha hax
          rw [List.mem_singleton] at hax
          exact hmem (hax ▸ ha)
        · intro hz
          rcases List.mem_append.mp hz with hz | hz
          · exact inv2 hz
          · rw [List.mem_singleton] at hz
            exact h0 hz.symm
        · intro id
          constructor
          · intro hid
            rcases List.mem_append.mp hid with hid | hid
            · obtain ⟨hne, hin⟩ := (inv3 id).mp hid
              exact ⟨hne, List.mem_append_left _ hin⟩
            · rw [List.mem_singleton] at hid
              exact ⟨hid ▸ h0, List.mem_append_right _ (by simp [hid])⟩
          · rintro ⟨hne, hin⟩
            rcases List.mem_append.mp hin with hin | hin
            · exact List.mem_append_left _ ((inv3 id).mpr ⟨hne, hin⟩)
            · rw [List.mem_singleton] at hin
              exact List.mem_append_right _ (by simp [hin])
        · simp only [List.length_append, List.length_singleton]
          rw [inv4]
        · simp

lemma distinctNonzero_take_le (seq : List Nat) (i : Nat) :
    distinctNonzero (seq.take i) ≤ distinctNonzero seq := by
  unfold distinctNonzero
  apply Finset.card_le_card
  intro a ha
  rw [List.mem_toFinset, List.mem_filter] at ha ⊢
  exact ⟨List.take_subset i seq ha.1, ha.2⟩

/-- Claim C8: for runs with at most 256 distinct nonzero ids, an
observation returns `true` exactly when the id occurred earlier in the
run; an id absent from the stored ring (in particular an evicted one)
observes as `false`; and `observe(0)` always returns `false` without
modifying the stash. -/
theorem claim_C8 :
    (∀ (seq : List Nat) (i : Nat), distinctNonzero seq ≤ 256 →
      i < seq.length → seq.getD i 0 ≠ 0 →
      ((stashKeyid (stashRun (seq.take i)) (seq.getD i 0)).1 = true ↔
        seq.getD i 0 ∈ seq.take i)) ∧
    (∀ (s : KeyStash) (id : Nat), id ∉ s.keyids → (stashKeyid s id).1 = false) ∧
    (∀ s : KeyStash, stashKeyid s 0 = (false, s)) := by
  refine ⟨?_, ?_, ?_⟩
  · intro seq i hdist hi hnz
    have hle : distinctNonzero (seq.take i) ≤ 256 :=
      le_trans (distinctNonzero_take_le seq i) hdist
    obtain ⟨_, _, inv3, _, _⟩ := stashRun_invariant (seq.take i) hle
    rw [stashKeyid_fst_true]
    constructor
    · intro hx
      exact ((inv3 _).mp hx.2).2
    · intro hx
      exact ⟨hnz, (inv3 _).mpr ⟨hnz, hx⟩⟩
  · intro s id hid
    unfold stashKeyid
    by_cases h0 : id = 0
    · rw [if_pos h0]
    · rw [if_neg h0, if_neg hid]
  · intro s
    unfold stashKeyid
    rw [if_pos rfl]

/-- Witness for claim C8: a repeated id observes `false` then `true`;
an id absent from a stash observes `false`; observing 0 is inert. -/
theorem claim_C8_witness :
    ((stashKeyid (stashRun ([7, 7].take 1)) ([7, 7].getD 1 0)).1 = true ↔
        ([7, 7].getD 1 0 : Nat) ∈ [7, 7].take 1) ∧
    (stashKeyid ⟨[5], 1⟩ 9).1 = false ∧
    stashKeyid ⟨[5], 1⟩ 0 = (false, ⟨[5], 1⟩) :=
  ⟨claim_C8.1 [7, 7] 1 (by decide) (by decide) (by decide),
    claim_C8.2.1 ⟨[5], 1⟩ 9 (by decide),
    claim_C8.2.2 ⟨[5], 1⟩⟩

/-! ## Legacy signature-tag merge (`headerMergeLegacySigs`) -/

def RPMSIGTAG_SIZE : Int := 1000
def RPMSIGTAG_PGP : Int := 1002
def RPMSIGTAG_MD5 : Int := 1004
def RPMSIGTAG_GPG : Int := 1005
def RPMSIGTAG_PGP5 : Int := 1006
def RPMSIGTAG_PAYLOADSIZE : Int := 1007
def RPMSIGTAG_SHA1 : Int := 269
def RPMSIGTAG_DSA : Int := 267
def RPMSIGTAG_RSA : Int := 268
def RPMTAG_SIGSIZE : Int := 257
def RPMTAG_SIGPGP : Int := 259
def RPMTAG_SIGMD5 : Int := 261
def RPMTAG_SIGGPG : Int := 262
def RPMTAG_SIGPGP5 : Int := 263
def RPMTAG_ARCHIVESIZE : Int := 1046
def HEADER_SIGBASE : Int := 256
def HEADER_TAGBASE : Int := 1000

/-- One header entry as yielded by `headerNext` (the data pointer is
always non-NULL for entries of a loaded header, per the code's own
`XXX can't happen` comment, so it is not modelled). -/
structure HEntry where
  tag : Int
  type : Nat
  count : Nat
deriving DecidableEq, Repr

/-- A loaded header: its list of entries. -/
structure Header where
  entries : List HEntry
deriving DecidableEq, Repr

/-- Model of `headerIsEntry`. -/
def headerIsEntry (h : Header) (tag : Int) : Bool :=
  h.entries.any (fun e => e.tag = tag)

/-- Model of `headerPut` (appends the entry). -/
def headerPut (h : Header) (e : HEntry) : Header := ⟨h.entries ++ [e]⟩

/-- Model of `hdrchkType(t)`: `t < RPM_MIN_TYPE || t > RPM_MAX_TYPE`; the type
field is unsigned so only the upper bound (9) can fire. -/
def hdrchkType (t : Nat) : Bool := decide (9 < t)

/-- Model of `hdrchkData(c)` on the unsigned count: `c & 0xf0000000`. -/
def hdrchkDataCount (c : Nat) : Bool := decide (268435456 ≤ c)

/-- The tag translation of `headerMergeLegacySigs` (the `switch` on
`td.tag`): legacy signature tags are remapped, other tags inside
`[HEADER_SIGBASE, HEADER_TAGBASE)` kept, the rest discarded. -/
def sigTagRemap (tag : Int) : Option Int :=
  if tag = RPMSIGTAG_SIZE then some RPMTAG_SIGSIZE
  else if tag = RPMSIGTAG_PGP then some RPMTAG_SIGPGP
  else if tag = RPMSIGTAG_MD5 then some RPMTAG_SIGMD5
  else if tag = RPMSIGTAG_GPG then some RPMTAG_SIGGPG
  else if tag = RPMSIGTAG_PGP5 then some RPMTAG_SIGPGP5
  else if tag = RPMSIGTAG_PAYLOADSIZE then some RPMTAG_ARCHIVESIZE
  else if HEADER_SIGBASE ≤ tag ∧ tag < HEADER_TAGBASE then some tag
  else none

/-- The `(type, count)` sanity filter of `headerMergeLegacySigs`
(`hdrchkType`, `hdrchkData`, then the `switch` on `td.type`). -/
def mergeSanityOK (t c : Nat) : Bool :=
  if hdrchkType t then false
  else if hdrchkDataCount c then false
  else if t = 0 then false
  else if t = 1 ∨ t = 2 ∨ t = 3 ∨ t = 4 ∨ t = 5 then decide (c = 1)
  else if t = 6 ∨ t = 7 then decide (c < 16384)
  else if t = 8 ∨ t = 9 then false
  else true

/-- One iteration of `headerMergeLegacySigs`. -/
def mergeStep (h : Header) (e : HEntry) : Header :=
  match sigTagRemap e.tag with
  | none => h
  | some t =>
    if headerIsEntry h t then h
    else if mergeSanityOK e.type e.count then headerPut h ⟨t, e.type, e.count⟩
    else h

/-- Model of `headerMergeLegacySigs` from `lib/package.c`. -/
def headerMergeLegacySigs (h sigh : Header) : Header :=
  sigh.entries.foldl mergeStep h

/-- The legacy remap table exactly as claim C7 lists it. -/
def legacySigPairs : List (Int × Int) :=
  [(RPMSIGTAG_SIZE, RPMTAG_SIGSIZE), (RPMSIGTAG_PGP, RPMTAG_SIGPGP),
   (RPMSIGTAG_MD5, RPMTAG_SIGMD5), (RPMSIGTAG_GPG, RPMTAG_SIGGPG),
   (RPMSIGTAG_PGP5, RPMTAG_SIGPGP5), (RPMSIGTAG_PAYLOADSIZE, RPMTAG_ARCHIVESIZE)]

/-- The remap as worded by claim C7: look the tag up in the table,
otherwise keep it when inside the reserved range, otherwise discard. -/
def remapSpec (tag : Int) : Option Int :=
  match legacySigPairs.find? (fun p => tag = p.1) with
  | some p => some p.2
  | none => if HEADER_SIGBASE ≤ tag ∧ tag < HEADER_TAGBASE then some tag else none

/-- The sanity rules as worded by claim C7: scalar types require
`count == 1`, `STRING` and `BIN` require `count < 16·1024`,
`STRING_ARRAY` and `I18N_STRING` are dropped. -/
def sanitySpec (t c : Nat) : Bool :=
  if t = 1 ∨ t = 2 ∨ t = 3 ∨ t = 4 ∨ t = 5 then decide (c = 1)
  else if t = 6 ∨ t = 7 then decide (c < 16384)
  else false

/-- One iteration of the merge as claim C7 words it. -/
def mergeStepSpec (h : Header) (e : HEntry) : Header :=
  match remapSpec e.tag with
  | none => h
  | some t =>
    if headerIsEntry h t then h
    else if sanitySpec e.type e.count then headerPut h ⟨t, e.type, e.count⟩
    else h

/-- The merge as claim C7 words it. -/
def headerMergeSpec (h sigh : Header) : Header :=
  sigh.entries.foldl mergeStepSpec h

lemma sigTagRemap_eq_spec (tag : Int) : sigTagRemap tag = remapSpec tag := by
  by_cases h1 : tag = RPMSIGTAG_SIZE
  · rw [h1]; decide
  by_cases h2 : tag = RPMSIGTAG_PGP
  · rw [h2]; decide
  by_cases h3 : tag = RPMSIGTAG_MD5
  · rw [h3]; decide
  by_cases h4 : tag = RPMSIGTAG_GPG
  · rw [h4]; decide
  by_cases h5 : tag = RPMSIGTAG_PGP5
  · rw [h5]; decide
  by_cases h6 : tag = RPMSIGTAG_PAYLOADSIZE
  · rw [h6]; decide
  have hfind : legacySigPairs.find? (fun p => tag = p.1) = none := by
    rw [List.find?_eq_none]
    intro p hp
    unfold legacySigPairs at hp
    simp only [List.mem_cons, List.not_mem_nil, or_false] at hp
    rcases hp with h | h | h | h | h | h <;>
      simp [h, h1, h2, h3, h4, h5, h6]
  unfold sigTagRemap remapSpec
  rw [hfind, if_neg h1, if_neg h2, if_neg h3, if_neg h4, if_neg h5, if_neg h6]

lemma mergeSanity_eq_spec (t c : Nat) (ht1 : 1 ≤ t) (ht2 : t ≤ 9) :
    mergeSanityOK t c = sanitySpec t c := by
  unfold mergeSanityOK sanitySpec hdrchkType hdrchkDataCount
  interval_cases t <;> by_cases hc : 268435456 ≤ c <;>
    simp_all <;> omega

lemma mergeStep_eq_spec (h : Header) (e : HEntry)
    (ht : 1 ≤ e.type ∧ e.type ≤ 9) : mergeStep h e = mergeStepSpec h e := by
  unfold mergeStep mergeStepSpec
  rw [sigTagRemap_eq_spec]
  cases remapSpec e.tag with
  | none => rfl
  | some t =>
    by_cases hmem : headerIsEntry h t
    · simp [hmem]
    · simp only [hmem, if_neg]
      rw [mergeSanity_eq_spec e.type e.count ht.1 ht.2]

/-- Claim C7: the merge remaps the legacy tags as listed, keeps other
tags in `[SIGBASE, TAGBASE)`, discards the rest, and adds a retained
entry only when absent from the metadata header and passing the listed
sanity rules (stated for the type codes the claim's rules cover,
`CHAR..I18N_STRING`). -/
theorem claim_C7 :
    (∀ tag : Int, sigTagRemap tag = remapSpec tag) ∧
    (∀ (h sigh : Header), (∀ e ∈ sigh.entries, 1 ≤ e.type ∧ e.type ≤ 9) →
      headerMergeLegacySigs h sigh = headerMergeSpec h sigh) := by
  refine ⟨sigTagRemap_eq_spec, ?_⟩
  intro h sigh htypes
  obtain ⟨l⟩ := sigh
  unfold headerMergeLegacySigs headerMergeSpec
  simp only at htypes ⊢
  induction l generalizing h with
  | nil => rfl
  | cons e tl ih =>
    simp only [List.foldl_cons]
    rw [mergeStep_eq_spec h e (htypes e (by simp))]
    exact ih _ (fun e' he' => htypes e' (by simp [he']))

/-- Witness for claim C7: a legacy MD5 entry is remapped and merged. -/
theorem claim_C7_witness :
    headerMergeLegacySigs ⟨[⟨1000, 4, 1⟩]⟩ ⟨[⟨1004, 7, 16⟩]⟩ =
      headerMergeSpec ⟨[⟨1000, 4, 1⟩]⟩ ⟨[⟨1004, 7, 16⟩]⟩ :=
  claim_C7.2 ⟨[⟨1000, 4, 1⟩]⟩ ⟨[⟨1004, 7, 16⟩]⟩ (by decide)

/-! ## Package-level algorithm selection (`rpmpkgRead`, the `_chk` chain) -/

/-- The `_chk` selection chain of `rpmpkgRead`: prefer `SIG_DSA`, then
`SIG_RSA`, then `SIG_SHA1`, skipping disabled or absent tags; 0 when
none qualifies. -/
def pkgSigtagSelect (vs : VSFlags) (sigh : Header) : Int :=
  if !vs.nodsaheader && headerIsEntry sigh RPMSIGTAG_DSA then RPMSIGTAG_DSA
  else if !vs.norsaheader && headerIsEntry sigh RPMSIGTAG_RSA then RPMSIGTAG_RSA
  else if !vs.nosha1header && headerIsEntry sigh RPMSIGTAG_SHA1 then RPMSIGTAG_SHA1
  else 0

/-- The disable bit governing a package signature tag. -/
def sigtagDisabled (vs : VSFlags) (t : Int) : Bool :=
  if t = RPMSIGTAG_DSA then vs.nodsaheader
  else if t = RPMSIGTAG_RSA then vs.norsaheader
  else if t = RPMSIGTAG_SHA1 then vs.nosha1header
  else true

/-- The selection as claim C4 words it: scan the priority list
`[DSA, RSA, SHA1]` for the first enabled and present tag, else 0. -/
def pkgSigtagScan (vs : VSFlags) (sigh : Header) : Int :=
  (([RPMSIGTAG_DSA, RPMSIGTAG_RSA, RPMSIGTAG_SHA1].filter
      (fun t => !sigtagDisabled vs t && headerIsEntry sigh t)).head?).getD 0

/-- Claim C4: the package-level selection is the pure priority scan of
the claim, and on a signature header containing all three tags the
disable combinations select DSA, RSA, SHA1, none, respectively. -/
theorem claim_C4 :
    (∀ (vs : VSFlags) (sigh : Header),
        pkgSigtagSelect vs sigh = pkgSigtagScan vs sigh) ∧
    (∀ sigh : Header, headerIsEntry sigh RPMSIGTAG_DSA = true →
        headerIsEntry sigh RPMSIGTAG_RSA = true →
        headerIsEntry sigh RPMSIGTAG_SHA1 = true →
        pkgSigtagSelect ⟨false, false, false⟩ sigh = RPMSIGTAG_DSA ∧
        pkgSigtagSelect ⟨false, false, true⟩ sigh = RPMSIGTAG_RSA ∧
        pkgSigtagSelect ⟨false, true, true⟩ sigh = RPMSIGTAG_SHA1 ∧
        pkgSigtagSelect ⟨true, true, true⟩ sigh = 0) := by
  constructor
  · intro vs sigh
    unfold pkgSigtagSelect pkgSigtagScan sigtagDisabled
    cases h1 : vs.nodsaheader <;> cases h2 : vs.norsaheader <;>
      cases h3 : vs.nosha1header <;>
      cases h4 : headerIsEntry sigh RPMSIGTAG_DSA <;>
      cases h5 : headerIsEntry sigh RPMSIGTAG_RSA <;>
      cases h6 : headerIsEntry sigh RPMSIGTAG_SHA1 <;>
      simp only [RPMSIGTAG_DSA, RPMSIGTAG_RSA, RPMSIGTAG_SHA1] at h4 h5 h6 <;>
      simp [RPMSIGTAG_DSA, RPMSIGTAG_RSA, RPMSIGTAG_SHA1, List.find?, h4, h5, h6]
  · intro sigh h267 h268 h269
    unfold pkgSigtagSelect
    refine ⟨by simp [h267], by simp [h267, h268], by simp [h267, h268, h269],
      by simp⟩

/-- A signature header carrying DSA, RSA and SHA1 entries. -/
def sighAll : Header := ⟨[⟨267, 7, 65⟩, ⟨268, 7, 65⟩, ⟨269, 6, 41⟩]⟩

/-- Witness for claim C4 on a concrete signature header. -/
theorem claim_C4_witness :
    pkgSigtagSelect ⟨false, false, true⟩ sighAll = RPMSIGTAG_RSA :=
  (claim_C4.2 sighAll (by decide) (by decide) (by decide)).2.1

/-! ## The package reader (`rpmpkgReadHeader`, `rpmpkgRead`) -/

def RPMLEAD_SOURCE : Int := 1
def RPMTAG_SOURCERPM : Int := 1044
def RPMTAG_SOURCEPACKAGE : Int := 1106
def RPMTAG_OLDFILENAMES : Int := 1027

/-- Model of `hdrchkTags(n)`: `n & 0xffff0000` on a signed 32-bit count. -/
def hdrchkTags (il : Int) : Bool := il < 0 || 65535 < il

/-- Model of `hdrchkData(n)`: `n & 0xf0000000` on a signed 32-bit size. -/
def hdrchkData (dl : Int) : Bool := dl < 0 || 268435455 < dl

/-- The parsed entry index of a blob (`blob->pe`, host order). -/
def blobPe (blob : Hdrblob) : List EntryInfo :=
  (List.range blob.il.toNat).map (fun i => readEntry blob.ei (8 + 16 * i))

/-- The data segment of a blob (`blob->dataStart`). -/
def blobData (blob : Hdrblob) : List Nat :=
  blob.ei.drop (8 + 16 * blob.il).toNat

/-- Model of `headerVerify` from `lib/package.c`: blob-size check, structural
check (`headerVerifyInfo` lives in lib/header.c, outside src/; per the
spec (§4.3) it either succeeds or fails with a `BadHeaderEntry`
diagnostic, modelled by the oracle `viMsg`, `none` meaning success),
then the header-only signature check when trailing tags exist, then the
`NOTFOUND with no message → Ok "Header sanity check: OK"` conversion. -/
def headerVerify (vs : VSFlags) (blob : Hdrblob) (viMsg : Option Msg)
    (parse : Td → ParseResult) (verify : List Nat → RC × Option Msg) :
    RC × Option Msg :=
  if 0 < blob.uc ∧ blob.pvlen ≠ blob.uc then (RC.fail, some Msg.blobSizeBad)
  else
    match viMsg with
    | some m => (RC.fail, some m)
    | none =>
      if blob.ril < blob.il then
        match headerSigVerify vs blob.il blob.dl blob.ril blob.rdl
            (blobPe blob) (blobData blob) parse verify with
        | out =>
          if out.rc = RC.notfound ∧ out.msg = none then (RC.ok, some Msg.sanityOK)
          else (out.rc, out.msg)
      else (RC.ok, none)

/-- The fresh blob view built by `hdrblobInit` over a memory buffer
(region fields zeroed). -/
def hdrblobMk (eiBytes : List Nat) (uc : Int) : Hdrblob :=
  ⟨eiBytes, uc, toSigned (readU32 eiBytes 0), toSigned (readU32 eiBytes 4),
    8 + 16 * toSigned (readU32 eiBytes 0) + toSigned (readU32 eiBytes 4), 0, 0, 0⟩

/-- Modelled from the spec: `hdrblobInit` (lib/header.c, not under
src/), per §4.1: read and bounds-check `il`/`dl`, check the total
length, build the blob view, then delegate region location to
`headerVerifyRegion` (§4.2), treating its `NotFound` as a legacy v3
header (region fields remain zero). -/
def hdrblobInit (eiBytes : List Nat) (uc : Int) (regionTag : Int) (exact : Bool) :
    Except (Option Msg) Hdrblob :=
  if hdrchkTags (toSigned (readU32 eiBytes 0)) then Except.error (some Msg.hdrTagsBad)
  else if hdrchkData (toSigned (readU32 eiBytes 4)) then Except.error (some Msg.hdrDataBad)
  else if ¬(uc = 8 + 16 * toSigned (readU32 eiBytes 0) + toSigned (readU32 eiBytes 4)) then
    Except.error (some Msg.blobSizeBad)
  else
    match headerVerifyRegion regionTag exact (hdrblobMk eiBytes uc) with
    | (RC.ok, b, _) => Except.ok b
    | (RC.notfound, _, _) => Except.ok (hdrblobMk eiBytes uc)
    | (RC.fail, _, m) => Except.error m
    | (RC.nottrusted, _, m) => Except.error m
    | (RC.nokey, _, m) => Except.error m

instance : DecidableEq (Except (Option Msg) Hdrblob) := fun x y =>
  match x, y with
  | Except.error a, Except.error b =>
    if h : a = b then isTrue (h ▸ rfl) else isFalse (fun hc => h (by injection hc))
  | Except.error _, Except.ok _ => isFalse (fun hc => Except.noConfusion hc)
  | Except.ok _, Except.error _ => isFalse (fun hc => Except.noConfusion hc)
  | Except.ok a, Except.ok b =>
    if h : a = b then isTrue (h ▸ rfl) else isFalse (fun hc => h (by injection hc))

/-- The signer-id parameters of a parsed signature (`pgpDigParams`,
only the `signid` bytes the code reads). -/
structure SigParams where
  signid : List Nat
deriving DecidableEq, Repr

/-- Outcome of the package-level `rpmSigInfoParse` call. -/
inductive PkgParseResult
  | fail (msg : Option Msg)
  | ok (sinfo : Sinfo) (sig : SigParams)

/-- Model of `getKeyid`: `pgpGrab(sigp->signid + 4, 4)`, 0 for a NULL sig. -/
def getKeyid (sig : Option SigParams) : Nat :=
  match sig with
  | none => 0
  | some p => readU32 p.signid 4

/-- The external collaborators and stream reads consumed by
`rpmpkgRead`; each field is the observable outcome of one interface of
§6 of the spec. -/
structure PkgEnv where
  leadRC : RC
  leadType : Int
  leadMsg : Option Msg
  sigRC : RC
  sigh : Header
  sigMsg : Option Msg
  introBytes : Option (List Nat)
  bodyBytes : Option (List Nat)
  viMsg : Option Msg
  hdrParse : Td → ParseResult
  hdrVerify : List Nat → RC × Option Msg
  importOk : Bool
  importHdr : Header
  pkgParse : HEntry → PkgParseResult
  immutBlob : Option (List Nat)
  pkgVerify : List Nat → RC × Option Msg
  convRetro : Header → Header
  convCompress : Header → Header

/-- Model of `rpmpkgReadHeader` from `lib/package.c`: read and check the 16-byte
lead-in, read the rest, build the blob (`hdrblobInit`, exact size,
`HEADERIMMUTABLE`), run `headerVerify`, then import the header. -/
def rpmpkgReadHeader (env : PkgEnv) (vs : VSFlags) :
    RC × Option Header × Option Msg :=
  match env.introBytes with
  | none => (RC.fail, none, some Msg.hdrReadShort)
  | some block =>
    if ¬(block.take 8 = rpm_header_magic) then (RC.fail, none, some Msg.hdrMagicBad)
    else if hdrchkTags (toSigned (readU32 block 8)) then
      (RC.fail, none, some Msg.hdrTagsBad)
    else if hdrchkData (toSigned (readU32 block 12)) then
      (RC.fail, none, some Msg.hdrDataBad)
    else match env.bodyBytes with
      | none => (RC.fail, none, some Msg.hdrBlobShort)
      | some body =>
        match hdrblobInit (be32 (readU32 block 8) ++ be32 (readU32 block 12) ++ body)
            (8 + 16 * toSigned (readU32 block 8) + toSigned (readU32 block 12))
            RPMTAG_HEADERIMMUTABLE true with
        | Except.error m => (RC.fail, none, m)
        | Except.ok blob =>
          match headerVerify vs blob env.viMsg env.hdrParse env.hdrVerify with
          | (rc, buf) =>
            if rc ≠ RC.ok then (rc, none, buf)
            else if env.importOk then (RC.ok, some env.importHdr, buf)
            else (RC.fail, none, some Msg.hdrLoadBad)

/-- Model of `headerIsSource(h)`: `!headerIsEntry(h, RPMTAG_SOURCERPM)`
(defined in the public rpm headers, not under src/). -/
def headerIsSource (h : Header) : Bool := !(headerIsEntry h RPMTAG_SOURCERPM)

/-- The retrofit-and-merge block at `exit:` of `rpmpkgRead`
(`SOURCEPACKAGE` retrofit, `SOURCERPM "(none)"`, v3 retrofit or
compressed-filelist conversion, then the legacy signature merge). -/
def pkgRetrofit (env : PkgEnv) (h : Header) : Header :=
  let h1 := if env.leadType = RPMLEAD_SOURCE ∧ headerIsSource h = true ∧
      headerIsEntry h RPMTAG_SOURCEPACKAGE = false
    then headerPut h ⟨RPMTAG_SOURCEPACKAGE, 4, 1⟩ else h
  let h2 := if headerIsEntry h1 RPMTAG_SOURCEPACKAGE = false ∧ headerIsSource h1 = true
    then headerPut h1 ⟨RPMTAG_SOURCERPM, 6, 1⟩ else h1
  let h3 := if headerIsEntry h2 RPMTAG_HEADERIMMUTABLE = false then env.convRetro h2
    else if headerIsEntry h2 RPMTAG_OLDFILENAMES = true then env.convCompress h2
    else h2
  headerMergeLegacySigs h3 env.sigh

/-- The result record of §6's `read_package`. -/
structure PkgOut where
  rc : RC
  hdr : Option Header
  keyid : Nat
  msg : Option Msg
deriving DecidableEq, Repr

/-- The `exit:` block of `rpmpkgRead`: when the verdict is not `Fail`
and a header was read, apply the retrofits and the legacy merge, return
the header and `getKeyid(sig)`; otherwise return no header. -/
def pkgExit (env : PkgEnv) (rc : RC) (hopt : Option Header)
    (sig : Option SigParams) (msg : Option Msg) : PkgOut :=
  match hopt with
  | none => ⟨rc, none, 0, msg⟩
  | some h =>
    if rc ≠ RC.fail then ⟨rc, some (pkgRetrofit env h), getKeyid sig, msg⟩
    else ⟨rc, none, 0, msg⟩

/-- Model of `headerGet(sigh, sigtag, ...)` with `HEADERGET_DEFAULT`, as the
lookup of the tag's entry. -/
def headerGetTag (h : Header) (tag : Int) : Option HEntry :=
  h.entries.find? (fun e => e.tag = tag)

/-- Model of `rpmpkgRead` from `lib/package.c`: lead, signature header,
algorithm selection, metadata header, package-level signature check,
retrofits and merge. -/
def rpmpkgRead (env : PkgEnv) (vs : VSFlags) : PkgOut :=
  if env.leadRC ≠ RC.ok then
    (if env.leadRC = RC.notfound then ⟨RC.notfound, none, 0, none⟩
     else ⟨env.leadRC, none, 0, env.leadMsg⟩)
  else if env.sigRC ≠ RC.ok then ⟨env.sigRC, none, 0, env.sigMsg⟩
  else
    match rpmpkgReadHeader env vs with
    | (hrc, hopt, hmsg) =>
      match hopt with
      | none => pkgExit env hrc none none hmsg
      | some h =>
        if hrc ≠ RC.ok then pkgExit env hrc (some h) none hmsg
        else if pkgSigtagSelect vs env.sigh = 0 then
          pkgExit env RC.ok (some h) none hmsg
        else
          match headerGetTag env.sigh (pkgSigtagSelect vs env.sigh) with
          | none => pkgExit env RC.fail (some h) none none
          | some e =>
            match env.pkgParse e with
            | PkgParseResult.fail m => pkgExit env RC.fail (some h) none m
            | PkgParseResult.ok _ sig =>
              match env.pkgVerify (match env.immutBlob with
                | some bs => rpm_header_magic ++ bs
                | none => []) with
              | (vrc, vmsg) => pkgExit env vrc (some h) (some sig) vmsg

lemma headerVerifyRegion_ok_exact (T : Int) (b0 b : Hdrblob) (m : Option Msg)
    (h : headerVerifyRegion T true b0 = (RC.ok, b, m)) :
    b.ril = b.il ∧ b.uc = b0.uc ∧ b.pvlen = b0.pvlen ∧ b.regionTag = T := by
  unfold headerVerifyRegion at h
  split_ifs at h with h1 h2 h3 h4 h5 h6 h7 <;>
    try exact (RC.noConfusion (congrArg Prod.fst h) : _)
  have hx : b0.il = regionRil b0 ∧ b0.dl = regionRdl b0 := by
    by_contra hc
    exact h7 ⟨rfl, hc⟩
  have hb : b = { b0 with rdl := regionRdl b0, ril := regionRil b0, regionTag := T } :=
    (congrArg (fun p => p.2.1) h).symm
  rw [hb]
  exact ⟨hx.1.symm, rfl, rfl, rfl⟩

lemma hdrblobInit_exact_ok (eiBytes : List Nat) (uc T : Int) (blob : Hdrblob)
    (h : hdrblobInit eiBytes uc T true = Except.ok blob)
    (hT : blob.regionTag = T) (hT0 : T ≠ 0) :
    blob.ril = blob.il ∧ blob.pvlen = blob.uc := by
  unfold hdrblobInit at h
  by_cases c1 : hdrchkTags (toSigned (readU32 eiBytes 0)) = true
  · rw [if_pos c1] at h
    exact absurd h (by simp)
  rw [if_neg c1] at h
  by_cases c2 : hdrchkData (toSigned (readU32 eiBytes 4)) = true
  · rw [if_pos c2] at h
    exact absurd h (by simp)
  rw [if_neg c2] at h
  by_cases c3 : uc = 8 + 16 * toSigned (readU32 eiBytes 0) + toSigned (readU32 eiBytes 4)
  case neg =>
    rw [if_pos c3] at h
    exact absurd h (by simp)
  rw [if_neg (not_not_intro c3)] at h
  rcases hreg : headerVerifyRegion T true (hdrblobMk eiBytes uc) with ⟨rc, b, m⟩
  rw [hreg] at h
  cases rc with
  | ok =>
    have hb : b = blob := by
      simpa using h
    obtain ⟨e1, e2, e3, _⟩ := headerVerifyRegion_ok_exact T (hdrblobMk eiBytes uc) b m hreg
    rw [← hb]
    refine ⟨e1, ?_⟩
    rw [e2, e3]
    show 8 + 16 * toSigned (readU32 eiBytes 0) + toSigned (readU32 eiBytes 4) = uc
    exact c3.symm
  | notfound =>
    have hb : blob = hdrblobMk eiBytes uc := by
      simpa using h.symm
    have : blob.regionTag = 0 := by rw [hb]; rfl
    exact absurd ((this.symm.trans hT).symm) hT0
  | fail => exact absurd h (by simp)
  | nottrusted => exact absurd h (by simp)
  | nokey => exact absurd h (by simp)

lemma headerVerify_noTrailing (vs : VSFlags) (blob : Hdrblob)
    (parse : Td → ParseResult) (verify : List Nat → RC × Option Msg)
    (hsz : blob.pvlen = blob.uc) (hil : ¬(blob.ril < blob.il)) :
    headerVerify vs blob none parse verify = (RC.ok, none) := by
  unfold headerVerify
  simp [hsz, hil]

lemma pkgSigtagSelect_allDisable (sigh : Header) :
    pkgSigtagSelect ⟨true, true, true⟩ sigh = 0 := by
  unfold pkgSigtagSelect
  simp

/-- Claim C5 (amended): when the metadata header parses and
structure-verifies and no enabled signature or digest tag is present in
the signature header, `rpmpkgRead` sets `rc = RPMRC_OK` (not
`NOTFOUND`) and still returns the header. -/
theorem claim_C5 (env : PkgEnv) (vs : VSFlags) (h : Header) (hmsg : Option Msg)
    (hlead : env.leadRC = RC.ok) (hsig : env.sigRC = RC.ok)
    (hrh : rpmpkgReadHeader env vs = (RC.ok, some h, hmsg))
    (hno : ∀ t ∈ [RPMSIGTAG_DSA, RPMSIGTAG_RSA, RPMSIGTAG_SHA1],
        sigtagDisabled vs t = true ∨ headerIsEntry env.sigh t = false) :
    (rpmpkgRead env vs).rc = RC.ok ∧ (rpmpkgRead env vs).hdr ≠ none := by
  have hd := hno RPMSIGTAG_DSA (by simp)
  have hr := hno RPMSIGTAG_RSA (by simp)
  have hs := hno RPMSIGTAG_SHA1 (by simp)
  simp only [sigtagDisabled, RPMSIGTAG_DSA, RPMSIGTAG_RSA, RPMSIGTAG_SHA1] at hd hr hs
  norm_num at hd hr hs
  have hsel : pkgSigtagSelect vs env.sigh = 0 := by
    unfold pkgSigtagSelect
    simp only [RPMSIGTAG_DSA, RPMSIGTAG_RSA, RPMSIGTAG_SHA1]
    rcases hd with hd | hd <;> rcases hr with hr | hr <;> rcases hs with hs | hs <;>
      simp [hd, hr, hs]
  unfold rpmpkgRead
  rw [hlead, hsig, hrh]
  simp only [hsel]
  simp [pkgExit, getKeyid]

/-- Environment of a concrete well-formed unsigned package: a valid
lead, an empty signature header, and a metadata header whose immutable
region is exactly the whole header. -/
def env0 : PkgEnv :=
  { leadRC := RC.ok, leadType := 0, leadMsg := none,
    sigRC := RC.ok, sigh := ⟨[]⟩, sigMsg := none,
    introBytes := some (rpm_header_magic ++ [0, 0, 0, 1] ++ [0, 0, 0, 16]),
    bodyBytes := some (validBlob.ei.drop 8),
    viMsg := none,
    hdrParse := fun _ => ParseResult.fail none,
    hdrVerify := fun _ => (RC.fail, none),
    importOk := true,
    importHdr := ⟨[⟨63, 7, 16⟩]⟩,
    pkgParse := fun _ => PkgParseResult.fail none,
    immutBlob := none,
    pkgVerify := fun _ => (RC.fail, none),
    convRetro := id, convCompress := id }

/-- Claim C5 is false as stated: on `env0` every premise of the claim
holds (the metadata header parses and structure-verifies, no enabled
signature or digest tag is present), yet the verdict is `Ok`, not
`NotFound` (the header is returned, as the claim also says). -/
theorem claim_C5_counterexample :
    pkgSigtagSelect ⟨false, false, false⟩ env0.sigh = 0 ∧
    (rpmpkgReadHeader env0 ⟨false, false, false⟩).1 = RC.ok ∧
    (rpmpkgRead env0 ⟨false, false, false⟩).rc = RC.ok ∧
    (rpmpkgRead env0 ⟨false, false, false⟩).rc ≠ RC.notfound ∧
    (rpmpkgRead env0 ⟨false, false, false⟩).hdr ≠ none := by
  decide

/-- Witness for claim C5's amended theorem at `env0`. -/
theorem claim_C5_witness :
    (rpmpkgRead env0 ⟨false, false, false⟩).rc = RC.ok ∧
    (rpmpkgRead env0 ⟨false, false, false⟩).hdr ≠ none :=
  claim_C5 env0 ⟨false, false, false⟩ ⟨[⟨63, 7, 16⟩]⟩ none
    (by decide) (by decide) (by decide) (by decide)

/-- Claim C6 (amended): reading a well-formed unsigned package whose
metadata header has a valid immutable region with every verification
flag disabled yields verdict `Ok`, a populated header and `keyid = 0`,
but **no** diagnostic message: the `"Header sanity check: OK"` message
only arises when trailing tags are present and yield no usable
signature, which the exact-size region check precludes for package
files. -/
theorem claim_C6 (env : PkgEnv) (blob : Hdrblob) (block body : List Nat)
    (hlead : env.leadRC = RC.ok) (hsig : env.sigRC = RC.ok)
    (hintro : env.introBytes = some block)
    (hmagic : block.take 8 = rpm_header_magic)
    (hil : hdrchkTags (toSigned (readU32 block 8)) = false)
    (hdl : hdrchkData (toSigned (readU32 block 12)) = false)
    (hbody : env.bodyBytes = some body)
    (hinit : hdrblobInit (be32 (readU32 block 8) ++ be32 (readU32 block 12) ++ body)
        (8 + 16 * toSigned (readU32 block 8) + toSigned (readU32 block 12))
        RPMTAG_HEADERIMMUTABLE true = Except.ok blob)
    (hregion : blob.regionTag = RPMTAG_HEADERIMMUTABLE)
    (hvi : env.viMsg = none) (himp : env.importOk = true) :
    (rpmpkgRead env ⟨true, true, true⟩).rc = RC.ok ∧
    (rpmpkgRead env ⟨true, true, true⟩).hdr ≠ none ∧
    (rpmpkgRead env ⟨true, true, true⟩).keyid = 0 ∧
    (rpmpkgRead env ⟨true, true, true⟩).msg = none := by
  obtain ⟨hril, hpv⟩ := hdrblobInit_exact_ok _ _ _ _ hinit hregion (by decide)
  have hv : headerVerify ⟨true, true, true⟩ blob none env.hdrParse env.hdrVerify =
      (RC.ok, none) :=
    headerVerify_noTrailing _ _ _ _ hpv (by omega)
  have hrh : rpmpkgReadHeader env ⟨true, true, true⟩ =
      (RC.ok, some env.importHdr, none) := by
    unfold rpmpkgReadHeader
    rw [hintro]
    simp only
    rw [if_neg (not_not_intro hmagic), if_neg (by simp [hil]), if_neg (by simp [hdl]),
      hbody]
    simp only
    rw [hinit]
    simp only
    rw [hvi, hv]
    simp [himp]
  unfold rpmpkgRead
  rw [hlead, hsig, hrh]
  simp only [pkgSigtagSelect_allDisable]
  simp [pkgExit, getKeyid]

/-- Claim C6 is false as stated: on `env0` (a well-formed unsigned
package with a valid immutable region) with all verification disabled,
the verdict is `Ok`, the header is returned, `keyid = 0`, but the
message is absent rather than `"Header sanity check: OK"`. -/
theorem claim_C6_counterexample :
    hdrblobInit validBlob.ei 40 RPMTAG_HEADERIMMUTABLE true =
        Except.ok ⟨validBlob.ei, 40, 1, 16, 40, 1, 16, 63⟩ ∧
    (rpmpkgRead env0 ⟨true, true, true⟩).rc = RC.ok ∧
    (rpmpkgRead env0 ⟨true, true, true⟩).hdr ≠ none ∧
    (rpmpkgRead env0 ⟨true, true, true⟩).keyid = 0 ∧
    (rpmpkgRead env0 ⟨true, true, true⟩).msg = none ∧
    (rpmpkgRead env0 ⟨true, true, true⟩).msg ≠ some Msg.sanityOK := by
  decide

/-- Witness for claim C6's amended theorem at `env0`. -/
theorem claim_C6_witness :
    (rpmpkgRead env0 ⟨true, true, true⟩).rc = RC.ok ∧
    (rpmpkgRead env0 ⟨true, true, true⟩).hdr ≠ none ∧
    (rpmpkgRead env0 ⟨true, true, true⟩).keyid = 0 ∧
    (rpmpkgRead env0 ⟨true, true, true⟩).msg = none :=
  claim_C6 env0 ⟨validBlob.ei, 40, 1, 16, 40, 1, 16, 63⟩
    (rpm_header_magic ++ [0, 0, 0, 1] ++ [0, 0, 0, 16]) (validBlob.ei.drop 8)
    (by decide) (by decide) (by decide) (by decide) (by decide) (by decide)
    (by decide) (by decide) (by decide) (by decide) (by decide)

end Rpm
